import Mathlib

/-!
Verification of the bootstrap trust-establishment protocol of
`pkg/bootstrap/server.go` (opni-monitoring).

The Go handlers `handleBootstrapJoin` and `handleBootstrapAuth` are embedded
shallowly.  Strings are `List Char`; Go's `strings.TrimSpace` and
`strings.TrimPrefix` are translated directly.  The cryptographic primitives
(`jws.Verify`, `tokens.ParseJSON`, `token.SignDetached`, `ecdh`) and the
storage backends (`storage.TokenStore`, `storage.TenantStore`) live outside
the given sources, so they are passed in as parameters (a `CryptoCfg` record
of pure functions) and as a state-threading `StoreOps` record modelled from
the spec's collaborator interfaces.  An explicit interleaving model of the
tenant-creation critical section captures concurrent `Auth` calls.
-/

deriving instance DecidableEq for Except

/-- Strings, as lists of characters (Go strings are byte/rune sequences). -/
abbrev Str := List Char

/-- Raw byte payloads. -/
abbrev Bytes := List Nat

/-- Go's `unicode.IsSpace`: the white space characters trimmed by
`strings.TrimSpace`. -/
def goIsSpace (c : Char) : Bool :=
  (9 ≤ c.toNat && c.toNat ≤ 13) || c.toNat = 32 || c.toNat = 133 ||
  c.toNat = 160 || c.toNat = 0x1680 ||
  (0x2000 ≤ c.toNat && c.toNat ≤ 0x200A) || c.toNat = 0x2028 ||
  c.toNat = 0x2029 || c.toNat = 0x202F || c.toNat = 0x205F ||
  c.toNat = 0x3000

/-- Go `strings.TrimSpace`: drop white space from both ends. -/
def goTrimSpace (s : Str) : Str :=
  List.rdropWhile goIsSpace (List.dropWhile goIsSpace s)

/-- Go `strings.TrimPrefix s pre`: remove `pre` from the front of `s` when it
is a prefix, otherwise return `s` unchanged. -/
def goTrimPrefix (s pre : Str) : Str :=
  if pre.isPrefixOf s then s.drop pre.length else s

/-- A bootstrap token (`pkg/tokens`).  Modelled from the spec: the package is
not among the given sources; a token is a secret byte string together with
its derived, non-secret hex identifier (`token.HexID()`), carried here as a
field. -/
structure Token where
  secret : Bytes
  hexID : Str
deriving DecidableEq, Repr

/-- The JSON body of `/bootstrap/auth` (`BootstrapAuthRequest`). -/
structure BootstrapAuthRequest where
  clientID : Str
  clientPubKey : Bytes
deriving DecidableEq, Repr

/-- An ephemeral ECDH key pair (`ecdh.EphemeralKeyPair`).  Modelled from the
spec: `pkg/ecdh` is not among the given sources. -/
structure EphemeralKeyPair where
  privateKey : Bytes
  publicKey : Bytes
deriving DecidableEq, Repr

/-- A tenant keyring.  Modelled from the spec: `pkg/keyring` is not among the
given sources; a keyring is an appendable container of shared symmetric
keys. -/
abbrev Keyring := List Bytes

/-- Modelled from the spec: `keyring.NewSharedKeys` wraps a derived shared
secret as symmetric key material. -/
def newSharedKeys (secret : Bytes) : Bytes :=
  secret

/-- Modelled from the spec: `keyring.New` builds a keyring from the given
keys. -/
def keyringNew (k : Bytes) : Keyring :=
  [k]

/-- The observable HTTP response of a handler.  `status n` is fiber's
`c.SendStatus(n)` (body is the default status text, identical for equal
codes); `withString n s` is `c.Status(n).SendString(s)`; `joinOk` and
`authOk` are the two `c.Status(200).JSON(...)` success bodies. -/
inductive Response where
  | status : Nat → Response
  | withString : Nat → Str → Response
  | joinOk : List (Str × Bytes) → Response
  | authOk : Bytes → Response
deriving DecidableEq, Repr

/-- Result of running the auth handler: a response, or a Go `panic` (which
aborts the request and, absent recovery middleware, the process). -/
inductive AuthResult where
  | resp : Response → AuthResult
  | panicked : Str → AuthResult
deriving DecidableEq, Repr

/-- The message of the `panic` at server.go line 93. -/
def panicMsg : Str :=
  ("bug: jws.Verify returned a malformed token").toList

/-- Body of the 400 response at server.go line 107. -/
def invalidBodyMsg : Str :=
  ("Invalid request body").toList

/-- Body of the 409 response at server.go line 114. -/
def idInUseMsg : Str :=
  ("ID already in use").toList

/-- The failure of `TenantStore.CreateTenant`.  Modelled from the spec:
`CreateTenant(ctx, clientID) → success|AlreadyExists`, so the only failure is
that the ClientID already exists. -/
inductive CreateErr where
  | alreadyExists
deriving DecidableEq, Repr

/-- The pure collaborators of the handlers: signature verification
(`jws.Verify` with the gateway certificate key), token decoding
(`tokens.ParseJSON`), body decoding (`c.BodyParser`), ephemeral key pair
generation and shared-secret derivation (`pkg/ecdh`), and detached signing
over a token secret (`token.SignDetached`).  Modelled from the spec: these
packages are not among the given sources, so they are supplied as opaque
pure functions; fallible ones return `Except`. -/
structure CryptoCfg where
  verify : Str → Except Unit Bytes
  parseTokenJSON : Bytes → Except Unit Token
  bodyParser : Bytes → Except Unit BootstrapAuthRequest
  newEphemeralKeyPair : EphemeralKeyPair
  deriveSharedSecret : EphemeralKeyPair → Bytes → Except Unit Bytes
  signDetached : Bytes → Except Unit Bytes

/-- The storage collaborators (`storage.TokenStore`, `storage.TenantStore`),
threaded through an abstract store state `S`.  Modelled from the spec:
`TokenExistsByID`, `TenantExists`, `CreateTenant` (atomic create-if-absent),
`KeyringStoreFor` and keyring `Put`. -/
structure StoreOps (S : Type) where
  tokenExists : S → Str → (Except Unit Bool) × S
  tenantExists : S → Str → (Except Unit Bool) × S
  createTenant : S → Str → (Except CreateErr Unit) × S
  keyringStoreFor : S → Str → (Except Unit Unit) × S
  putKeyring : S → Str → Keyring → (Except Unit Unit) × S

/-- Server.go lines 76 and 82: the bearer assertion extracted from the
`Authorization` header — surrounding white space trimmed, an optional leading
`Bearer` removed, and the remainder trimmed again. -/
def authBearerTokenOf (header : Str) : Str :=
  goTrimSpace (goTrimPrefix (goTrimSpace header) (("Bearer").toList))

/-- Server.go lines 83-145: the part of `handleBootstrapAuth` that runs after
the `Authorization` header was found non-empty, applied to the extracted
bearer assertion. -/
def authVerified {S : Type} (cfg : CryptoCfg) (ops : StoreOps S)
    (body : Bytes) (s : S) (bearerToken : Str) : AuthResult × S :=
  match cfg.verify bearerToken with
  | Except.error _ => (AuthResult.resp (Response.status 401), s)
  | Except.ok payload =>
    match cfg.parseTokenJSON payload with
    | Except.error _ => (AuthResult.panicked panicMsg, s)
    | Except.ok token =>
      match ops.tokenExists s token.hexID with
      | (Except.error _, s1) => (AuthResult.resp (Response.status 500), s1)
      | (Except.ok tokOk, s1) =>
        if tokOk = false then (AuthResult.resp (Response.status 401), s1)
        else
          match cfg.bodyParser body with
          | Except.error _ =>
            (AuthResult.resp (Response.withString 400 invalidBodyMsg), s1)
          | Except.ok clientReq =>
            match ops.tenantExists s1 clientReq.clientID with
            | (Except.error _, s2) => (AuthResult.resp (Response.status 500), s2)
            | (Except.ok tenOk, s2) =>
              if tenOk then
                (AuthResult.resp (Response.withString 409 idInUseMsg), s2)
              else
                let ekp := cfg.newEphemeralKeyPair
                match cfg.deriveSharedSecret ekp clientReq.clientPubKey with
                | Except.error _ => (AuthResult.resp (Response.status 500), s2)
                | Except.ok sharedSecret =>
                  let kr := keyringNew (newSharedKeys sharedSecret)
                  match ops.createTenant s2 clientReq.clientID with
                  | (Except.error _, s3) =>
                    (AuthResult.resp (Response.status 500), s3)
                  | (Except.ok _, s3) =>
                    match ops.keyringStoreFor s3 clientReq.clientID with
                    | (Except.error _, s4) =>
                      (AuthResult.resp (Response.status 500), s4)
                    | (Except.ok _, s4) =>
                      match ops.putKeyring s4 clientReq.clientID kr with
                      | (Except.error _, s5) =>
                        (AuthResult.resp (Response.status 500), s5)
                      | (Except.ok _, s5) =>
                        (AuthResult.resp (Response.authOk ekp.publicKey), s5)

/-- Server.go lines 74-145, `handleBootstrapAuth`: trim the header, reject an
empty one with 401, then verify, decode, look up the token, parse the body,
pre-check the tenant, derive the shared secret, create the tenant and persist
the keyring. -/
def handleBootstrapAuth {S : Type} (cfg : CryptoCfg) (ops : StoreOps S)
    (header : Str) (body : Bytes) (s : S) : AuthResult × S :=
  let authHeader := goTrimSpace header
  if goTrimSpace authHeader = [] then
    (AuthResult.resp (Response.status 401), s)
  else
    authVerified cfg ops body s
      (goTrimSpace (goTrimPrefix authHeader (("Bearer").toList)))

/-- Go map insertion (`signatures[token.HexID()] = sig`), on an association
list: replace an existing binding for the key, otherwise append. -/
def mapInsert (m : List (Str × Bytes)) (k : Str) (v : Bytes) :
    List (Str × Bytes) :=
  if m.any (fun p => p.1 == k) then
    m.map (fun p => if p.1 == k then (k, v) else p)
  else
    m ++ [(k, v)]

/-- Go map lookup on the association-list model. -/
def mapLookup (m : List (Str × Bytes)) (k : Str) : Option Bytes :=
  (m.find? (fun p => p.1 == k)).map (fun p => p.2)

/-- Server.go lines 25-44, `bootstrapJoinResponse`: sign every active token's
secret with the gateway identity key and map each token's hex identifier to
its signature.  The second component records the secrets for which a detached
signature was computed (the handler's observable crypto work). -/
def bootstrapJoinResponse (cfg : CryptoCfg) :
    List Token → List (Str × Bytes) →
      (Except Unit (List (Str × Bytes))) × List Bytes
  | [], acc => (Except.ok acc, [])
  | t :: ts, acc =>
    match cfg.signDetached t.secret with
    | Except.error e => (Except.error e, [t.secret])
    | Except.ok sig =>
      let rest := bootstrapJoinResponse cfg ts (mapInsert acc t.hexID sig)
      (rest.1, t.secret :: rest.2)

/-- What the join handler did besides responding: whether it listed the
active tokens, and which token secrets it signed. -/
structure JoinTrace where
  listedTokens : Bool
  signAttempts : List Bytes
deriving DecidableEq, Repr

/-- Server.go lines 57-72, `handleBootstrapJoin`: any non-empty
`Authorization` header is rejected with 400 before touching the token store;
otherwise the signatures are assembled, an empty set yields 405 (server not
accepting bootstrap requests) and a non-empty one a 200 JSON response. -/
def handleBootstrapJoin (cfg : CryptoCfg) (activeTokens : List Token)
    (header : Str) : Response × JoinTrace :=
  let authHeader := goTrimSpace header
  if authHeader = [] then
    match bootstrapJoinResponse cfg activeTokens [] with
    | (Except.error _, sigTrace) => (Response.status 500, ⟨true, sigTrace⟩)
    | (Except.ok signatures, sigTrace) =>
      if signatures.length = 0 then (Response.status 405, ⟨true, sigTrace⟩)
      else (Response.joinOk signatures, ⟨true, sigTrace⟩)
  else
    (Response.status 400, ⟨false, []⟩)

/-- The durable backing state behind the stores: the registered tokens, the
created tenant ClientIDs, and the persisted keyrings. -/
structure StoreState where
  tokens : List Token
  tenants : List Str
  keyrings : List (Str × Keyring)
deriving DecidableEq, Repr

/-- The deterministic in-memory store.  Modelled from the spec: reads are
pure queries of the backing state, `CreateTenant` is the atomic
create-if-absent (failing with `alreadyExists` exactly when the ClientID is
present), and the keyring `Put` persists the keyring for the tenant. -/
def memStore : StoreOps StoreState where
  tokenExists := fun s id =>
    (Except.ok (s.tokens.any (fun t => t.hexID == id)), s)
  tenantExists := fun s c => (Except.ok (s.tenants.contains c), s)
  createTenant := fun s c =>
    if s.tenants.contains c then (Except.error CreateErr.alreadyExists, s)
    else (Except.ok (), { s with tenants := c :: s.tenants })
  keyringStoreFor := fun s _ => (Except.ok (), s)
  putKeyring := fun s c kr =>
    (Except.ok (), { s with keyrings := (c, kr) :: s.keyrings })

/-!
Interleaving model of concurrent `Auth` calls for one contested ClientID.

Each agent is one in-flight `Auth` request that has already passed steps 1-5
(header, signature, token lookup, body) for the same ClientID; what remains
is the shared-state critical section of server.go lines 110-145.  The local
pure work (ephemeral key generation, secret derivation, keyring
construction, lines 117-127) touches no shared state and is folded into the
transition to the create step.
-/

/-- What a finished concurrent `Auth` call observed: the 409 conflict of the
pre-check (line 114), the 500 internal error the handler returns when
`CreateTenant` fails (lines 128-131), or the 200 success (line 142). -/
inductive RaceOutcome where
  | conflict
  | internal
  | ok
deriving DecidableEq, Repr

/-- The control point of one in-flight `Auth` call inside the critical
section: about to run the `TenantExists` pre-check (line 110), about to run
the atomic `CreateTenant` (line 128), about to persist the keyring
(lines 132-140), or finished. -/
inductive RacePhase where
  | preCheck
  | createT
  | putK
  | done : RaceOutcome → RacePhase
deriving DecidableEq, Repr

/-- One atomic step of one agent against the shared tenant registry.
`preCheck` reads `TenantExists` and exits with the 409 conflict when the
ClientID is present (lines 110-115); `createT` is the store's atomic
create-if-absent, whose failure the handler maps to a 500 internal error
(lines 128-131); `putK` persists the keyring and succeeds (modelled from the
spec: keyring persistence is all-or-nothing and does not fail here). -/
def stepPhase (cid : Str) (tenants : List Str) :
    RacePhase → RacePhase × List Str
  | RacePhase.preCheck =>
    if cid ∈ tenants then (RacePhase.done RaceOutcome.conflict, tenants)
    else (RacePhase.createT, tenants)
  | RacePhase.createT =>
    if cid ∈ tenants then (RacePhase.done RaceOutcome.internal, tenants)
    else (RacePhase.putK, cid :: tenants)
  | RacePhase.putK => (RacePhase.done RaceOutcome.ok, tenants)
  | RacePhase.done o => (RacePhase.done o, tenants)

/-- Advance the agent at position `i`; an out-of-range index changes
nothing. -/
def stepAgents (cid : Str) (tenants : List Str) :
    List RacePhase → Nat → List RacePhase × List Str
  | [], _ => ([], tenants)
  | p :: ps, 0 =>
    ((stepPhase cid tenants p).1 :: ps, (stepPhase cid tenants p).2)
  | p :: ps, Nat.succ n =>
    (p :: (stepAgents cid tenants ps n).1, (stepAgents cid tenants ps n).2)

/-- Shared state of the race: the tenant registry and every agent's control
point. -/
structure RaceState where
  tenants : List Str
  agents : List RacePhase
deriving DecidableEq, Repr

/-- One scheduler step: the chosen agent executes its next atomic action. -/
def raceStep (cid : Str) (st : RaceState) (i : Nat) : RaceState :=
  ⟨(stepAgents cid st.tenants st.agents i).2,
   (stepAgents cid st.tenants st.agents i).1⟩

/-- Run a whole schedule (a list of agent indices). -/
def raceRun (cid : Str) (st : RaceState) (sched : List Nat) : RaceState :=
  sched.foldl (raceStep cid) st

/-- Agents that hold or will hold the created tenant: past the successful
atomic create. -/
def winning : RacePhase → Bool
  | RacePhase.putK => true
  | RacePhase.done RaceOutcome.ok => true
  | _ => false

/-- Agents whose `Auth` call succeeded. -/
def succeeded : RacePhase → Bool
  | RacePhase.done RaceOutcome.ok => true
  | _ => false

/-- Agents whose `Auth` call finished with a failure. -/
def failedDone : RacePhase → Bool
  | RacePhase.done RaceOutcome.conflict => true
  | RacePhase.done RaceOutcome.internal => true
  | _ => false

/-- Agents whose `Auth` call finished. -/
def raceDone : RacePhase → Bool
  | RacePhase.done _ => true
  | _ => false

/-- The HTTP response a losing agent's request returns (`none` for the
winner, whose 200 response carries the ephemeral server public key). -/
def raceLoserResponse : RaceOutcome → Option Response
  | RaceOutcome.conflict => some (Response.withString 409 idInUseMsg)
  | RaceOutcome.internal => some (Response.status 500)
  | RaceOutcome.ok => none

/-- The race invariant, with `k` winners external to the tracked agent list:
at most one winner overall, the contested ClientID is registered exactly
when there is a winner, and any failed agent witnesses the registration. -/
def RaceInv (cid : Str) (k : Nat) (tenants : List Str)
    (agents : List RacePhase) : Prop :=
  agents.countP winning + k ≤ 1 ∧
  (cid ∈ tenants ↔ agents.countP winning + k = 1) ∧
  (∀ p ∈ agents, failedDone p = true → cid ∈ tenants)

/-! Facts about Go's trimming functions. -/

lemma dropWhile_append_of_all (p : Char → Bool) (a b : Str)
    (h : ∀ x ∈ a, p x = true) :
    List.dropWhile p (a ++ b) = List.dropWhile p b := by
  induction a with
  | nil => rfl
  | cons x xs ih =>
    have hx : p x = true := h x (List.mem_cons_self x xs)
    simp only [List.cons_append, List.dropWhile_cons, hx, if_true]
    exact ih (fun y hy => h y (List.mem_cons_of_mem x hy))

lemma dropWhile_append_of_ne_nil (p : Char → Bool) (a b : Str)
    (h : List.dropWhile p a ≠ []) :
    List.dropWhile p (a ++ b) = List.dropWhile p a ++ b := by
  induction a with
  | nil => simp [List.dropWhile] at h
  | cons x xs ih =>
    by_cases hx : p x = true
    · simp only [List.cons_append, List.dropWhile_cons, hx, if_true]
      simp only [List.dropWhile_cons, hx, if_true] at h
      exact ih h
    · simp [List.dropWhile_cons, hx]

lemma rdropWhile_append_of_ne_nil (p : Char → Bool) (a b : Str)
    (h : List.rdropWhile p b ≠ []) :
    List.rdropWhile p (a ++ b) = a ++ List.rdropWhile p b := by
  have hb : List.dropWhile p b.reverse ≠ [] := by
    intro hcon
    apply h
    simp [List.rdropWhile, hcon]
  simp only [List.rdropWhile, List.reverse_append]
  rw [dropWhile_append_of_ne_nil p b.reverse a.reverse hb]
  simp

lemma dropWhile_rdropWhile_dropWhile (p : Char → Bool) (l : Str) :
    List.dropWhile p (List.rdropWhile p (List.dropWhile p l)) =
      List.rdropWhile p (List.dropWhile p l) := by
  by_cases hr : List.rdropWhile p (List.dropWhile p l) = []
  · rw [hr]
    rfl
  · obtain ⟨c, w, hcw⟩ := List.exists_cons_of_ne_nil hr
    obtain ⟨k, hk⟩ := List.rdropWhile_prefix p (List.dropWhile p l)
    have hu : List.dropWhile p l = c :: (w ++ k) := by
      rw [← hk, hcw]
      rfl
    have hidem := List.dropWhile_idempotent (l := l) (p := p)
    rw [hu, List.dropWhile_cons] at hidem
    have hc : p c = false := by
      by_cases hpc : p c = true
      · simp only [hpc, if_true] at hidem
        have hle : (List.dropWhile p (w ++ k)).length ≤ (w ++ k).length :=
          (List.dropWhile_suffix p).sublist.length_le
        rw [hidem] at hle
        simp at hle
      · simpa using hpc
    rw [hcw, List.dropWhile_cons, hc]
    simp

lemma rdrop_drop_rdrop (p : Char → Bool) (l : Str) :
    List.rdropWhile p (List.dropWhile p (List.rdropWhile p l)) =
      List.rdropWhile p (List.dropWhile p l) := by
  by_cases hr : List.rdropWhile p (List.dropWhile p l) = []
  · have hall : ∀ x ∈ List.dropWhile p l, p x :=
      List.rdropWhile_eq_nil_iff.mp hr
    have halll : ∀ x ∈ l, p x := by
      intro x hx
      have hx' : x ∈ List.takeWhile p l ++ List.dropWhile p l := by
        rw [List.takeWhile_append_dropWhile p l]
        exact hx
      rcases List.mem_append.mp hx' with hx1 | hx2
      · exact List.mem_takeWhile_imp hx1
      · exact hall x hx2
    have hrl : List.rdropWhile p l = [] :=
      List.rdropWhile_eq_nil_iff.mpr halll
    rw [hrl, hr]
    rfl
  · have hs1 : ∀ x ∈ List.takeWhile p l, p x = true :=
      fun x hx => List.mem_takeWhile_imp hx
    have hsplit : List.takeWhile p l ++ List.dropWhile p l = l :=
      List.takeWhile_append_dropWhile p l
    have h1 : List.rdropWhile p l =
        List.takeWhile p l ++ List.rdropWhile p (List.dropWhile p l) := by
      conv_lhs => rw [← hsplit]
      exact rdropWhile_append_of_ne_nil p _ _ hr
    rw [h1, dropWhile_append_of_all p _ _ hs1, dropWhile_rdropWhile_dropWhile,
      List.rdropWhile_idempotent]

lemma goTrimSpace_goTrimSpace (l : Str) :
    goTrimSpace (goTrimSpace l) = goTrimSpace l := by
  unfold goTrimSpace
  rw [dropWhile_rdropWhile_dropWhile, List.rdropWhile_idempotent]

lemma rdropWhile_ne_nil_of_goTrimSpace_ne_nil (l : Str)
    (h : goTrimSpace l ≠ []) : List.rdropWhile goIsSpace l ≠ [] := by
  intro hcon
  apply h
  have hall : ∀ x ∈ l, goIsSpace x := List.rdropWhile_eq_nil_iff.mp hcon
  have hd : List.dropWhile goIsSpace l = [] :=
    List.dropWhile_eq_nil_iff.mpr hall
  unfold goTrimSpace
  rw [hd]
  rfl

lemma goTrimSpace_bearer_append (h : Str) (hne : goTrimSpace h ≠ []) :
    goTrimSpace (("Bearer ").toList ++ h) =
      ("Bearer ").toList ++ List.rdropWhile goIsSpace h := by
  have hrd : List.rdropWhile goIsSpace h ≠ [] :=
    rdropWhile_ne_nil_of_goTrimSpace_ne_nil h hne
  have hb : List.dropWhile goIsSpace (("Bearer ").toList) =
      ("Bearer ").toList := by decide
  unfold goTrimSpace
  rw [dropWhile_append_of_ne_nil goIsSpace _ _ (by rw [hb]; simp), hb,
    rdropWhile_append_of_ne_nil goIsSpace _ _ hrd]

lemma authBearerTokenOf_bearer_append (h : Str) (hne : goTrimSpace h ≠ []) :
    authBearerTokenOf (("Bearer ").toList ++ h) = goTrimSpace h := by
  unfold authBearerTokenOf
  rw [goTrimSpace_bearer_append h hne]
  have hsplit : ("Bearer ").toList =
      ("Bearer").toList ++ (" ").toList := by decide
  rw [hsplit, List.append_assoc]
  unfold goTrimPrefix
  have hpre : (("Bearer").toList).isPrefixOf
      (("Bearer").toList ++ ((" ").toList ++ List.rdropWhile goIsSpace h)) =
        true := by
    simp [List.isPrefixOf_iff_prefix]
  rw [hpre]
  simp only [if_true, List.drop_left]
  show goTrimSpace ((" ").toList ++ List.rdropWhile goIsSpace h) = goTrimSpace h
  unfold goTrimSpace
  rw [dropWhile_append_of_all goIsSpace _ _ (by decide)]
  exact rdrop_drop_rdrop goIsSpace h

lemma authBearerTokenOf_no_bearer (h : Str)
    (hpre : (("Bearer").toList).isPrefixOf (goTrimSpace h) = false) :
    authBearerTokenOf h = goTrimSpace h := by
  unfold authBearerTokenOf goTrimPrefix
  rw [hpre]
  simp [goTrimSpace_goTrimSpace]

/-! Facts about the interleaving model. -/

lemma stepAgents_zero (cid : Str) (tenants : List Str) (p : RacePhase)
    (ps : List RacePhase) :
    stepAgents cid tenants (p :: ps) 0 =
      ((stepPhase cid tenants p).1 :: ps, (stepPhase cid tenants p).2) :=
  rfl

lemma stepAgents_succ (cid : Str) (tenants : List Str) (p : RacePhase)
    (ps : List RacePhase) (n : Nat) :
    stepAgents cid tenants (p :: ps) (Nat.succ n) =
      (p :: (stepAgents cid tenants ps n).1,
        (stepAgents cid tenants ps n).2) :=
  rfl

lemma stepAgents_tenants (cid : Str) :
    ∀ (agents : List RacePhase) (tenants : List Str) (n : Nat),
      (stepAgents cid tenants agents n).2 = tenants ∨
      (stepAgents cid tenants agents n).2 = cid :: tenants := by
  intro agents
  induction agents with
  | nil => intro tenants n; left; rfl
  | cons p ps ih =>
    intro tenants n
    match n with
    | 0 =>
      rw [stepAgents_zero]
      cases p with
      | preCheck =>
        by_cases hc : cid ∈ tenants <;> simp [stepPhase, hc]
      | createT =>
        by_cases hc : cid ∈ tenants <;> simp [stepPhase, hc]
      | putK => left; rfl
      | done o => left; rfl
    | Nat.succ m =>
      rw [stepAgents_succ]
      exact ih tenants m

lemma stepAgents_length (cid : Str) :
    ∀ (agents : List RacePhase) (tenants : List Str) (n : Nat),
      (stepAgents cid tenants agents n).1.length = agents.length := by
  intro agents
  induction agents with
  | nil => intro tenants n; rfl
  | cons p ps ih =>
    intro tenants n
    match n with
    | 0 => rfl
    | Nat.succ m =>
      rw [stepAgents_succ]
      simp [ih tenants m]

lemma raceRun_length (cid : Str) (sched : List Nat) :
    ∀ st : RaceState,
      (raceRun cid st sched).agents.length = st.agents.length := by
  induction sched with
  | nil => intro st; rfl
  | cons i r ih =>
    intro st
    show (raceRun cid (raceStep cid st i) r).agents.length = _
    rw [ih]
    exact stepAgents_length cid st.agents st.tenants i

lemma mem_of_step (cid : Str) (tenants tenants' : List Str)
    (hstep : tenants' = tenants ∨ tenants' = cid :: tenants)
    (h : cid ∈ tenants) : cid ∈ tenants' := by
  rcases hstep with h1 | h1 <;> subst h1
  · exact h
  · exact List.mem_cons_of_mem _ h

lemma countP_winning_cons (p : RacePhase) (ps : List RacePhase) :
    List.countP winning (p :: ps) =
      List.countP winning ps + if winning p then 1 else 0 :=
  List.countP_cons winning p ps

lemma stepAgents_inv (cid : Str) :
    ∀ (agents : List RacePhase) (k : Nat) (tenants : List Str) (n : Nat),
      RaceInv cid k tenants agents →
      RaceInv cid k (stepAgents cid tenants agents n).2
        (stepAgents cid tenants agents n).1 := by
  intro agents
  induction agents with
  | nil => intro k tenants n hinv; exact hinv
  | cons p ps ih =>
    intro k tenants n hinv
    obtain ⟨h1, h2, h3⟩ := hinv
    match n with
    | 0 =>
      rw [stepAgents_zero]
      cases p with
      | preCheck =>
        by_cases hc : cid ∈ tenants
        · rw [stepPhase, if_pos hc]
          have hcnew : List.countP winning
              (RacePhase.done RaceOutcome.conflict :: ps) =
                List.countP winning ps := by
            simp [countP_winning_cons, winning]
          have hcold : List.countP winning (RacePhase.preCheck :: ps) =
              List.countP winning ps := by
            simp [countP_winning_cons, winning]
          rw [hcold] at h1 h2
          show RaceInv cid k tenants (RacePhase.done RaceOutcome.conflict :: ps)
          exact ⟨by rw [hcnew]; exact h1, by rw [hcnew]; exact h2,
            fun q hq hfq => hc⟩
        · rw [stepPhase, if_neg hc]
          have hcnew : List.countP winning (RacePhase.createT :: ps) =
              List.countP winning ps := by
            simp [countP_winning_cons, winning]
          have hcold : List.countP winning (RacePhase.preCheck :: ps) =
              List.countP winning ps := by
            simp [countP_winning_cons, winning]
          rw [hcold] at h1 h2
          show RaceInv cid k tenants (RacePhase.createT :: ps)
          refine ⟨by rw [hcnew]; exact h1, by rw [hcnew]; exact h2, ?_⟩
          intro q hq hfq
          rcases List.mem_cons.mp hq with hqp | hqtail
          · subst hqp
            simp [failedDone] at hfq
          · exact h3 q (List.mem_cons_of_mem _ hqtail) hfq
      | createT =>
        by_cases hc : cid ∈ tenants
        · rw [stepPhase, if_pos hc]
          have hcnew : List.countP winning
              (RacePhase.done RaceOutcome.internal :: ps) =
                List.countP winning ps := by
            simp [countP_winning_cons, winning]
          have hcold : List.countP winning (RacePhase.createT :: ps) =
              List.countP winning ps := by
            simp [countP_winning_cons, winning]
          rw [hcold] at h1 h2
          show RaceInv cid k tenants (RacePhase.done RaceOutcome.internal :: ps)
          exact ⟨by rw [hcnew]; exact h1, by rw [hcnew]; exact h2,
            fun q hq hfq => hc⟩
        · rw [stepPhase, if_neg hc]
          have hcold : List.countP winning (RacePhase.createT :: ps) =
              List.countP winning ps := by
            simp [countP_winning_cons, winning]
          rw [hcold] at h1 h2
          have hz : List.countP winning ps + k = 0 := by
            have hne : List.countP winning ps + k ≠ 1 := fun hcon =>
              hc (h2.mpr hcon)
            omega
          have hcnew : List.countP winning (RacePhase.putK :: ps) =
              List.countP winning ps + 1 := by
            simp [countP_winning_cons, winning]
          show RaceInv cid k (cid :: tenants) (RacePhase.putK :: ps)
          refine ⟨?_, ?_, ?_⟩
          · rw [hcnew]
            omega
          · rw [hcnew]
            constructor
            · intro _
              omega
            · intro _
              exact List.mem_cons_self _ _
          · intro q hq hfq
            exact List.mem_cons_self _ _
      | putK =>
        rw [stepPhase]
        have hcnew : List.countP winning
            (RacePhase.done RaceOutcome.ok :: ps) =
              List.countP winning ps + 1 := by
          simp [countP_winning_cons, winning]
        have hcold : List.countP winning (RacePhase.putK :: ps) =
            List.countP winning ps + 1 := by
          simp [countP_winning_cons, winning]
        rw [hcold] at h1 h2
        show RaceInv cid k tenants (RacePhase.done RaceOutcome.ok :: ps)
        refine ⟨by rw [hcnew]; exact h1, by rw [hcnew]; exact h2, ?_⟩
        intro q hq hfq
        rcases List.mem_cons.mp hq with hqp | hqtail
        · subst hqp
          simp [failedDone] at hfq
        · exact h3 q (List.mem_cons_of_mem _ hqtail) hfq
      | done o =>
        rw [stepPhase]
        show RaceInv cid k tenants (RacePhase.done o :: ps)
        exact ⟨h1, h2, h3⟩
    | Nat.succ m =>
      rw [stepAgents_succ]
      have htail : RaceInv cid (k + if winning p then 1 else 0) tenants ps := by
        rw [countP_winning_cons] at h1 h2
        refine ⟨by omega, ?_, ?_⟩
        · constructor
          · intro hcc
            have := h2.mp hcc
            omega
          · intro hcc
            apply h2.mpr
            omega
        · intro q hq hfq
          exact h3 q (List.mem_cons_of_mem _ hq) hfq
      have hres := ih (k + if winning p then 1 else 0) tenants m htail
      obtain ⟨g1, g2, g3⟩ := hres
      have htm := stepAgents_tenants cid ps tenants m
      refine ⟨?_, ?_, ?_⟩
      · rw [countP_winning_cons]
        omega
      · rw [countP_winning_cons]
        constructor
        · intro hcc
          have := g2.mp hcc
          omega
        · intro hcc
          apply g2.mpr
          omega
      · intro q hq hfq
        rcases List.mem_cons.mp hq with hqp | hqtail
        · subst hqp
          exact mem_of_step cid tenants _ htm
            (h3 q (List.mem_cons_self _ _) hfq)
        · exact g3 q hqtail hfq

lemma raceRun_inv (cid : Str) (sched : List Nat) :
    ∀ st : RaceState, RaceInv cid 0 st.tenants st.agents →
      RaceInv cid 0 (raceRun cid st sched).tenants
        (raceRun cid st sched).agents := by
  induction sched with
  | nil => intro st h; exact h
  | cons i r ih =>
    intro st h
    show RaceInv cid 0 (raceRun cid (raceStep cid st i) r).tenants _
    exact ih _ (stepAgents_inv cid st.agents 0 st.tenants i h)

/-! Concrete fixtures for witnesses and counterexamples. -/

/-- A registered example token. -/
def tokW : Token :=
  ⟨[7], ("ab12").toList⟩

/-- Example crypto collaborators: one verifiable assertion whose payload
decodes, one verifiable assertion whose payload does not decode, one
well-formed body, one derivable client public key. -/
def cfgW : CryptoCfg where
  verify := fun b =>
    if b = ("sigOK").toList then Except.ok [1]
    else if b = ("sigBadParse").toList then Except.ok [2]
    else Except.error ()
  parseTokenJSON := fun p =>
    if p = [1] then Except.ok tokW else Except.error ()
  bodyParser := fun b =>
    if b = [2] then Except.ok ⟨("agent-1").toList, [3]⟩ else Except.error ()
  newEphemeralKeyPair := ⟨[4], [5]⟩
  deriveSharedSecret := fun _ pub =>
    if pub = [3] then Except.ok [6] else Except.error ()
  signDetached := fun s => Except.ok (0 :: s)

/-- Store with the example token registered and no tenants. -/
def stW : StoreState :=
  ⟨[tokW], [], []⟩

/-- Store with the example token registered and tenant agent-1 created. -/
def stTenW : StoreState :=
  ⟨[tokW], [("agent-1").toList], []⟩

/-- Store with no registered tokens. -/
def stNoTokW : StoreState :=
  ⟨[], [], []⟩

/-- C2 (amended): when the signature-verified payload fails to decode back
into a token, `handleBootstrapAuth` does not return an internal-error
response; it panics with the bug message of server.go line 93, aborting the
request, and mutates no state. -/
theorem auth_unparseable_payload_panics {S : Type} (cfg : CryptoCfg)
    (ops : StoreOps S) (header : Str) (body : Bytes) (s : S) (payload : Bytes)
    (hhdr : goTrimSpace header ≠ [])
    (hv : cfg.verify (authBearerTokenOf header) = Except.ok payload)
    (hp : cfg.parseTokenJSON payload = Except.error ()) :
    handleBootstrapAuth cfg ops header body s =
      (AuthResult.panicked panicMsg, s) := by
  have hgate : ¬goTrimSpace (goTrimSpace header) = [] := by
    rw [goTrimSpace_goTrimSpace]
    exact hhdr
  simp only [handleBootstrapAuth]
  rw [if_neg hgate]
  show authVerified cfg ops body s (authBearerTokenOf header) =
    (AuthResult.panicked panicMsg, s)
  simp only [authVerified, hv, hp]

/-- Witness for C2's theorem at a concrete run. -/
theorem auth_unparseable_payload_panics_witness :
    handleBootstrapAuth cfgW memStore (("Bearer sigBadParse").toList) [] stW =
      (AuthResult.panicked panicMsg, stW) :=
  auth_unparseable_payload_panics cfgW memStore (("Bearer sigBadParse").toList)
    [] stW [2] (by decide) (by decide) (by decide)

/-- C2 counterexample: at this concrete verified-but-undecodable assertion
the handler's result is a panic, not an internal-error (or any other)
response. -/
theorem auth_unparseable_payload_counterexample :
    (handleBootstrapAuth cfgW memStore (("Bearer sigBadParse").toList) []
        stW).1 = AuthResult.panicked panicMsg ∧
    AuthResult.panicked panicMsg ≠ AuthResult.resp (Response.status 500) := by
  constructor
  · decide
  · decide

/-- The store as seen by one `Auth` request that loses the creation race:
the tenant is absent at the step-6 pre-check, and by the time the atomic
`CreateTenant` runs, a concurrent request has created it, so the create
fails with `alreadyExists` (the concurrent window of spec §5; reachable in
the interleaving model below). -/
def raceLoserStore : StoreOps Unit where
  tokenExists := fun s _ => (Except.ok true, s)
  tenantExists := fun s _ => (Except.ok false, s)
  createTenant := fun s _ => (Except.error CreateErr.alreadyExists, s)
  keyringStoreFor := fun s _ => (Except.ok (), s)
  putKeyring := fun s _ _ => (Except.ok (), s)

/-- C3 (amended): when `TenantStore.CreateTenant` fails — per the store
contract, because the ClientID already exists — `handleBootstrapAuth`
returns the 500 internal-error response of server.go lines 128-131, an
outcome distinct from the 409 conflict of the step-6 pre-check; nothing is
overwritten by the handler itself. -/
theorem auth_createTenant_failure_internal_error {S : Type} (cfg : CryptoCfg)
    (ops : StoreOps S) (header : Str) (body : Bytes)
    (s s1 s2 s3 : S) (payload : Bytes) (token : Token)
    (clientReq : BootstrapAuthRequest) (secret : Bytes)
    (hhdr : goTrimSpace header ≠ [])
    (hv : cfg.verify (authBearerTokenOf header) = Except.ok payload)
    (hp : cfg.parseTokenJSON payload = Except.ok token)
    (hte : ops.tokenExists s token.hexID = (Except.ok true, s1))
    (hbody : cfg.bodyParser body = Except.ok clientReq)
    (hten : ops.tenantExists s1 clientReq.clientID = (Except.ok false, s2))
    (hds : cfg.deriveSharedSecret cfg.newEphemeralKeyPair
      clientReq.clientPubKey = Except.ok secret)
    (hct : ops.createTenant s2 clientReq.clientID =
      (Except.error CreateErr.alreadyExists, s3)) :
    handleBootstrapAuth cfg ops header body s =
      (AuthResult.resp (Response.status 500), s3) ∧
    Response.status 500 ≠ Response.withString 409 idInUseMsg := by
  have hgate : ¬goTrimSpace (goTrimSpace header) = [] := by
    rw [goTrimSpace_goTrimSpace]
    exact hhdr
  constructor
  · simp only [handleBootstrapAuth]
    rw [if_neg hgate]
    show authVerified cfg ops body s (authBearerTokenOf header) =
      (AuthResult.resp (Response.status 500), s3)
    simp [authVerified, hv, hp, hte, hbody, hten, hds, hct]
  · simp

/-- Witness for C3's theorem at a concrete losing run. -/
theorem auth_createTenant_failure_internal_error_witness :
    handleBootstrapAuth cfgW raceLoserStore (("Bearer sigOK").toList) [2] () =
      (AuthResult.resp (Response.status 500), ()) ∧
    Response.status 500 ≠ Response.withString 409 idInUseMsg :=
  auth_createTenant_failure_internal_error cfgW raceLoserStore
    (("Bearer sigOK").toList) [2] () () () () [1] tokW
    ⟨("agent-1").toList, [3]⟩ [6] (by decide) (by decide) (by decide)
    (by decide) (by decide) (by decide) (by decide) (by decide)

/-- C3 counterexample: a request that passes the pre-check but whose
`CreateTenant` fails with `alreadyExists` gets the 500 response, not the 409
conflict the claim asserts. -/
theorem auth_createTenant_conflict_counterexample :
    handleBootstrapAuth cfgW raceLoserStore (("Bearer sigOK").toList)
        [2] () = (AuthResult.resp (Response.status 500), ()) ∧
    AuthResult.resp (Response.status 500) ≠
      AuthResult.resp (Response.withString 409 idInUseMsg) := by
  constructor
  · decide
  · decide

/-- C5: a missing (empty after trimming) `Authorization` header, a bearer
assertion that fails signature verification, and a verified token whose
identifier is unknown to the TokenStore all produce the identical 401
response value — no distinction in result kind or content. -/
theorem auth_unauthenticated_indistinguishable {S : Type} (cfg : CryptoCfg)
    (ops : StoreOps S) (header : Str) (body : Bytes) (s : S) :
    (goTrimSpace header = [] →
      (handleBootstrapAuth cfg ops header body s).1 =
        AuthResult.resp (Response.status 401)) ∧
    (cfg.verify (authBearerTokenOf header) = Except.error () →
      (handleBootstrapAuth cfg ops header body s).1 =
        AuthResult.resp (Response.status 401)) ∧
    (∀ (payload : Bytes) (token : Token) (s1 : S),
      cfg.verify (authBearerTokenOf header) = Except.ok payload →
      cfg.parseTokenJSON payload = Except.ok token →
      ops.tokenExists s token.hexID = (Except.ok false, s1) →
      (handleBootstrapAuth cfg ops header body s).1 =
        AuthResult.resp (Response.status 401)) := by
  refine ⟨?_, ?_, ?_⟩
  · intro hhdr
    have hgate : goTrimSpace (goTrimSpace header) = [] := by
      rw [goTrimSpace_goTrimSpace]
      exact hhdr
    simp [handleBootstrapAuth, hgate]
  · intro hv
    by_cases hgate : goTrimSpace (goTrimSpace header) = []
    · simp [handleBootstrapAuth, hgate]
    · simp only [handleBootstrapAuth]
      rw [if_neg hgate]
      show (authVerified cfg ops body s (authBearerTokenOf header)).1 =
        AuthResult.resp (Response.status 401)
      simp [authVerified, hv]
  · intro payload token s1 hv hp hte
    by_cases hgate : goTrimSpace (goTrimSpace header) = []
    · simp [handleBootstrapAuth, hgate]
    · simp only [handleBootstrapAuth]
      rw [if_neg hgate]
      show (authVerified cfg ops body s (authBearerTokenOf header)).1 =
        AuthResult.resp (Response.status 401)
      simp [authVerified, hv, hp, hte]

/-- Witness for C5's theorem: the three failure modes at concrete inputs,
each yielding the very same 401 value. -/
theorem auth_unauthenticated_indistinguishable_witness :
    (handleBootstrapAuth cfgW memStore (("   ").toList) [] stW).1 =
      AuthResult.resp (Response.status 401) ∧
    (handleBootstrapAuth cfgW memStore (("Bearer nope").toList) [] stW).1 =
      AuthResult.resp (Response.status 401) ∧
    (handleBootstrapAuth cfgW memStore (("Bearer sigOK").toList) []
        stNoTokW).1 = AuthResult.resp (Response.status 401) :=
  ⟨(auth_unauthenticated_indistinguishable cfgW memStore (("   ").toList) []
      stW).1 (by decide),
   (auth_unauthenticated_indistinguishable cfgW memStore
      (("Bearer nope").toList) [] stW).2.1 (by decide),
   (auth_unauthenticated_indistinguishable cfgW memStore
      (("Bearer sigOK").toList) [] stNoTokW).2.2 [1] tokW stNoTokW
      (by decide) (by decide) (by decide)⟩

/-- C8: replaying a well-formed `Auth` call (valid assertion, known token,
well-formed body) for a ClientID whose tenant already exists fails
deterministically with the 409 conflict of server.go line 114, and the
backing store — tokens, tenants and keyrings — is returned exactly
unchanged. -/
theorem auth_replay_conflict_state_unchanged (cfg : CryptoCfg) (header : Str)
    (body : Bytes) (st : StoreState) (payload : Bytes) (token : Token)
    (clientReq : BootstrapAuthRequest)
    (hhdr : goTrimSpace header ≠ [])
    (hv : cfg.verify (authBearerTokenOf header) = Except.ok payload)
    (hp : cfg.parseTokenJSON payload = Except.ok token)
    (htok : st.tokens.any (fun t => t.hexID == token.hexID) = true)
    (hbody : cfg.bodyParser body = Except.ok clientReq)
    (hten : st.tenants.contains clientReq.clientID = true) :
    handleBootstrapAuth cfg memStore header body st =
      (AuthResult.resp (Response.withString 409 idInUseMsg), st) := by
  have hgate : ¬goTrimSpace (goTrimSpace header) = [] := by
    rw [goTrimSpace_goTrimSpace]
    exact hhdr
  simp only [handleBootstrapAuth]
  rw [if_neg hgate]
  show authVerified cfg memStore body st (authBearerTokenOf header) =
    (AuthResult.resp (Response.withString 409 idInUseMsg), st)
  have hmem : clientReq.clientID ∈ st.tenants := by
    simpa using hten
  simp [authVerified, memStore, hv, hp, htok, hbody, hmem]

/-- Witness for C8's theorem at a concrete replay. -/
theorem auth_replay_conflict_state_unchanged_witness :
    handleBootstrapAuth cfgW memStore (("Bearer sigOK").toList) [2] stTenW =
      (AuthResult.resp (Response.withString 409 idInUseMsg), stTenW) :=
  auth_replay_conflict_state_unchanged cfgW (("Bearer sigOK").toList) [2]
    stTenW [1] tokW ⟨("agent-1").toList, [3]⟩ (by decide) (by decide)
    (by decide) (by decide) (by decide) (by decide)

lemma authVerified_memStore_state (cfg : CryptoCfg) (body : Bytes)
    (st : StoreState) (bt : Str) (r : AuthResult) (st' : StoreState)
    (hrun : authVerified cfg memStore body st bt = (r, st')) :
    st' = st ∨
    r = AuthResult.resp (Response.authOk
      cfg.newEphemeralKeyPair.publicKey) := by
  unfold authVerified at hrun
  cases hv : cfg.verify bt with
  | error e =>
    simp only [hv] at hrun
    exact Or.inl (congrArg Prod.snd hrun).symm
  | ok payload =>
    simp only [hv] at hrun
    cases hp : cfg.parseTokenJSON payload with
    | error e =>
      simp only [hp] at hrun
      exact Or.inl (congrArg Prod.snd hrun).symm
    | ok token =>
      simp only [hp, memStore] at hrun
      by_cases htok :
          (st.tokens.any (fun t => t.hexID == token.hexID)) = false
      · rw [if_pos htok] at hrun
        exact Or.inl (congrArg Prod.snd hrun).symm
      · rw [if_neg htok] at hrun
        cases hb : cfg.bodyParser body with
        | error e =>
          simp only [hb] at hrun
          exact Or.inl (congrArg Prod.snd hrun).symm
        | ok clientReq =>
          simp only [hb] at hrun
          by_cases hten : st.tenants.contains clientReq.clientID = true
          · rw [if_pos hten] at hrun
            exact Or.inl (congrArg Prod.snd hrun).symm
          · rw [if_neg hten] at hrun
            cases hd : cfg.deriveSharedSecret cfg.newEphemeralKeyPair
                clientReq.clientPubKey with
            | error e =>
              simp only [hd] at hrun
              exact Or.inl (congrArg Prod.snd hrun).symm
            | ok secret =>
              simp only [hd] at hrun
              rw [if_neg hten] at hrun
              exact Or.inr (congrArg Prod.fst hrun).symm

/-- C9: every `Auth` request over the in-memory store that fails before the
tenant-creation step — 401 unauthorized (missing header, bad signature,
unknown token), 400 invalid body, 409 pre-check conflict, or 500 (over this
store only the key-exchange failure reaches a 500) — leaves the backing
store (tokens, tenants, keyrings) exactly as it was. -/
theorem auth_failure_before_create_no_mutation (cfg : CryptoCfg)
    (header : Str) (body : Bytes) (st : StoreState) (r : AuthResult)
    (st' : StoreState)
    (hrun : handleBootstrapAuth cfg memStore header body st = (r, st'))
    (hfail : r = AuthResult.resp (Response.status 401) ∨
      r = AuthResult.resp (Response.withString 400 invalidBodyMsg) ∨
      r = AuthResult.resp (Response.withString 409 idInUseMsg) ∨
      r = AuthResult.resp (Response.status 500)) :
    st' = st := by
  simp only [handleBootstrapAuth] at hrun
  by_cases hgate : goTrimSpace (goTrimSpace header) = []
  · rw [if_pos hgate] at hrun
    exact (congrArg Prod.snd hrun).symm
  · rw [if_neg hgate] at hrun
    rcases authVerified_memStore_state cfg body st _ r st' hrun with h | h
    · exact h
    · exfalso
      rcases hfail with h4 | h4 | h4 | h4 <;> rw [h4] at h <;> simp at h

/-- Witness for C9's theorem at a concrete failing request. -/
theorem auth_failure_before_create_no_mutation_witness :
    (handleBootstrapAuth cfgW memStore (("Bearer nope").toList) [] stW).2 =
      stW :=
  auth_failure_before_create_no_mutation cfgW (("Bearer nope").toList) [] stW
    (handleBootstrapAuth cfgW memStore (("Bearer nope").toList) [] stW).1
    (handleBootstrapAuth cfgW memStore (("Bearer nope").toList) [] stW).2
    rfl (Or.inl (by decide))

/-- Crypto collaborators whose only verifiable assertion itself starts with
the characters `Bearer`. -/
def cfg10 : CryptoCfg :=
  { cfgW with verify := fun b =>
      if b = ("BearerX").toList then Except.ok [1] else Except.error () }

/-- C10 (amended): the `Bearer` prefix of the `Authorization` header is
optional — the verified assertion is the header trimmed of surrounding
white space with one optional leading `Bearer` removed, so a whitespace-only
header is treated as absent (401), and a header carrying the bare assertion
behaves identically to the `Bearer `-prefixed one provided the assertion
does not itself begin with `Bearer` (when it does, the bare form loses its
leading `Bearer` and behaves differently — see the counterexample). -/
theorem auth_bearer_optional_amended {S : Type} (cfg : CryptoCfg)
    (ops : StoreOps S) (body : Bytes) (s : S) (header : Str) :
    (goTrimSpace header = [] →
      handleBootstrapAuth cfg ops header body s =
        (AuthResult.resp (Response.status 401), s)) ∧
    (goTrimSpace header ≠ [] →
      (("Bearer").toList).isPrefixOf (goTrimSpace header) = false →
      handleBootstrapAuth cfg ops (("Bearer ").toList ++ header) body s =
        handleBootstrapAuth cfg ops header body s) := by
  constructor
  · intro hhdr
    have hgate : goTrimSpace (goTrimSpace header) = [] := by
      rw [goTrimSpace_goTrimSpace]
      exact hhdr
    simp [handleBootstrapAuth, hgate]
  · intro hne hpre
    have hg1 : ¬goTrimSpace (goTrimSpace (("Bearer ").toList ++ header)) =
        [] := by
      rw [goTrimSpace_goTrimSpace, goTrimSpace_bearer_append header hne]
      intro hcon
      have hB : (("Bearer ").toList : Str) = [] :=
        (List.append_eq_nil.mp hcon).1
      exact absurd hB (by decide)
    have hg2 : ¬goTrimSpace (goTrimSpace header) = [] := by
      rw [goTrimSpace_goTrimSpace]
      exact hne
    simp only [handleBootstrapAuth]
    rw [if_neg hg1, if_neg hg2]
    show authVerified cfg ops body s
        (authBearerTokenOf (("Bearer ").toList ++ header)) =
      authVerified cfg ops body s (authBearerTokenOf header)
    rw [authBearerTokenOf_bearer_append header hne,
      authBearerTokenOf_no_bearer header hpre]

/-- Witness for C10's theorem: the prefixed and the bare header at a
concrete assertion, plus nothing else, yield the same run. -/
theorem auth_bearer_optional_amended_witness :
    handleBootstrapAuth cfgW memStore
        (("Bearer ").toList ++ ("abc").toList) [] stW =
      handleBootstrapAuth cfgW memStore (("abc").toList) [] stW :=
  (auth_bearer_optional_amended cfgW memStore [] stW (("abc").toList)).2
    (by decide) (by decide)

/-- C10 counterexample: with an assertion that itself begins with `Bearer`
(`BearerX` is the only verifiable assertion here), the bare-assertion header
behaves differently from the `Bearer `-prefixed one: the prefixed form
verifies and reaches the body parse (400), the bare form loses its leading
`Bearer`, fails verification, and gets 401. -/
theorem auth_bare_bearer_collision_counterexample :
    handleBootstrapAuth cfg10 memStore (("Bearer BearerX").toList) [] stW ≠
      handleBootstrapAuth cfg10 memStore (("BearerX").toList) [] stW := by
  decide

/-! Facts about the join response map. -/

lemma mapInsert_of_not_mem (m : List (Str × Bytes)) (k : Str) (v : Bytes)
    (h : m.any (fun p => p.1 == k) = false) :
    mapInsert m k v = m ++ [(k, v)] := by
  unfold mapInsert
  rw [h]
  simp

lemma bootstrapJoinResponse_ok (cfg : CryptoCfg) (sigOf : Token → Bytes) :
    ∀ (ts : List Token) (acc : List (Str × Bytes)),
      (∀ t ∈ ts, cfg.signDetached t.secret = Except.ok (sigOf t)) →
      (bootstrapJoinResponse cfg ts acc).1 =
        Except.ok
          (ts.foldl (fun m t => mapInsert m t.hexID (sigOf t)) acc) := by
  intro ts
  induction ts with
  | nil => intro acc hsig; rfl
  | cons t ts ih =>
    intro acc hsig
    have hst : cfg.signDetached t.secret = Except.ok (sigOf t) :=
      hsig t (List.mem_cons_self t ts)
    simp only [bootstrapJoinResponse, hst, List.foldl_cons]
    exact ih (mapInsert acc t.hexID (sigOf t))
      (fun u hu => hsig u (List.mem_cons_of_mem t hu))

lemma keys_any_append (acc : List (Str × Bytes)) (k : Str) (v : Bytes)
    (x : Str) (h1 : acc.any (fun p => p.1 == x) = false)
    (h2 : (k == x) = false) :
    (acc ++ [(k, v)]).any (fun p => p.1 == x) = false := by
  rw [List.any_append, h1]
  simp [h2]

lemma foldl_insert_disjoint (sigOf : Token → Bytes) :
    ∀ (ts : List Token) (acc : List (Str × Bytes)),
      (ts.map Token.hexID).Nodup →
      (∀ t ∈ ts, acc.any (fun p => p.1 == t.hexID) = false) →
      ts.foldl (fun m t => mapInsert m t.hexID (sigOf t)) acc =
        acc ++ ts.map (fun t => (t.hexID, sigOf t)) := by
  intro ts
  induction ts with
  | nil => intro acc _ _; simp
  | cons t ts ih =>
    intro acc hnodup hdisj
    rw [List.map_cons, List.nodup_cons] at hnodup
    have hd2 : ∀ u ∈ ts,
        (acc ++ [(t.hexID, sigOf t)]).any (fun p => p.1 == u.hexID) =
          false := by
      intro u hu
      apply keys_any_append
      · exact hdisj u (List.mem_cons_of_mem t hu)
      · exact beq_eq_false_iff_ne.mpr (fun hcon => hnodup.1
          (by rw [hcon]; exact List.mem_map_of_mem Token.hexID hu))
    rw [List.foldl_cons, mapInsert_of_not_mem acc t.hexID (sigOf t)
      (hdisj t (List.mem_cons_self t ts)), ih _ hnodup.2 hd2]
    simp

lemma mapLookup_map_self (sigOf : Token → Bytes) :
    ∀ (ts : List Token), (ts.map Token.hexID).Nodup →
      ∀ t ∈ ts,
        mapLookup (ts.map (fun u => (u.hexID, sigOf u))) t.hexID =
          some (sigOf t) := by
  intro ts
  induction ts with
  | nil => intro _ t ht; cases ht
  | cons u ts ih =>
    intro hnodup t ht
    rw [List.map_cons, List.nodup_cons] at hnodup
    rcases List.mem_cons.mp ht with h1 | h2
    · subst h1
      unfold mapLookup
      rw [List.map_cons, List.find?_cons_of_pos _ (by simp)]
      rfl
    · have hne : (u.hexID == t.hexID) = false :=
        beq_eq_false_iff_ne.mpr (fun hcon => hnodup.1
          (by rw [hcon]; exact List.mem_map_of_mem Token.hexID h2))
      unfold mapLookup
      rw [List.map_cons, List.find?_cons_of_neg _ (by simp [hne])]
      exact ih hnodup.2 t h2

/-- A second registered example token, with a distinct hex identifier. -/
def tok2 : Token :=
  ⟨[8], ("cd34").toList⟩

/-- C4 (amended): for every non-empty set of active tokens with pairwise
distinct hex identifiers whose secrets all sign successfully, `Join` with no
credential succeeds with a `Signatures` map holding exactly one entry per
token, keyed by that token's hex identifier and valued by the detached
signature over that token's secret.  (The empty set instead yields the 405
failure — see the counterexample and C7.) -/
theorem join_signature_per_token (cfg : CryptoCfg) (ts : List Token)
    (header : Str) (sigOf : Token → Bytes)
    (hhdr : goTrimSpace header = [])
    (hne : ts ≠ [])
    (hnodup : (ts.map Token.hexID).Nodup)
    (hsig : ∀ t ∈ ts, cfg.signDetached t.secret = Except.ok (sigOf t)) :
    (handleBootstrapJoin cfg ts header).1 =
      Response.joinOk (ts.map (fun t => (t.hexID, sigOf t))) ∧
    ∀ t ∈ ts,
      mapLookup (ts.map (fun t => (t.hexID, sigOf t))) t.hexID =
        some (sigOf t) := by
  constructor
  · have hok := bootstrapJoinResponse_ok cfg sigOf ts [] hsig
    rw [foldl_insert_disjoint sigOf ts [] hnodup (fun u hu => rfl),
      List.nil_append] at hok
    simp only [handleBootstrapJoin]
    rw [hhdr, if_pos rfl]
    rcases hX : bootstrapJoinResponse cfg ts [] with ⟨x1, x2⟩
    rw [hX] at hok
    have hx1 : x1 = Except.ok (ts.map fun t => (t.hexID, sigOf t)) := hok
    subst hx1
    have hlen : (ts.map fun t => (t.hexID, sigOf t)).length ≠ 0 := by
      rw [List.length_map]
      intro hcon
      exact hne (List.eq_nil_of_length_eq_zero hcon)
    simp [hlen, hne]
  · exact mapLookup_map_self sigOf ts hnodup

/-- Witness for C4's theorem over a concrete two-token set. -/
theorem join_signature_per_token_witness :
    (handleBootstrapJoin cfgW [tokW, tok2] []).1 =
      Response.joinOk
        ([tokW, tok2].map (fun t => (t.hexID, 0 :: t.secret))) ∧
    ∀ t ∈ [tokW, tok2],
      mapLookup ([tokW, tok2].map (fun t => (t.hexID, 0 :: t.secret)))
        t.hexID = some (0 :: t.secret) :=
  join_signature_per_token cfgW [tokW, tok2] [] (fun t => 0 :: t.secret)
    (by decide) (by decide) (by decide) (by decide)

/-- C4 counterexample: over the empty token set, `Join` with no credential
does not return a success with an empty `Signatures` map; it returns the 405
failure. -/
theorem join_empty_token_set_counterexample :
    (handleBootstrapJoin cfgW [] []).1 = Response.status 405 ∧
    Response.status 405 ≠ Response.joinOk [] := by
  constructor
  · decide
  · decide

/-- C6 (amended): `Join` with any `Authorization` header that is non-empty
after trimming surrounding white space fails immediately with the 400
client-error of server.go line 70, whatever the header's content, without
listing the active tokens and without computing a single signature.  A
whitespace-only header, though non-empty, is trimmed to empty by
server.go line 58 and the join proceeds instead — see the
counterexample. -/
theorem join_credential_rejected_no_effects (cfg : CryptoCfg)
    (activeTokens : List Token) (header : Str)
    (hhdr : goTrimSpace header ≠ []) :
    handleBootstrapJoin cfg activeTokens header =
      (Response.status 400, ⟨false, []⟩) := by
  simp only [handleBootstrapJoin]
  rw [if_neg hhdr]

/-- Witness for C6's theorem at a concrete credentialed request. -/
theorem join_credential_rejected_no_effects_witness :
    handleBootstrapJoin cfgW [tokW] (("sometoken").toList) =
      (Response.status 400, ⟨false, []⟩) :=
  join_credential_rejected_no_effects cfgW [tokW] (("sometoken").toList)
    (by decide)

/-- C6 counterexample: the header consisting of one space is a non-empty
`Authorization` header value, yet `Join` does not fail with the 400
client-error: server.go line 58 trims it to empty, so the handler proceeds
to list the active tokens, computes a signature over the registered token's
secret, and returns the 200 signatures success. -/
theorem join_whitespace_header_counterexample :
    ((" ").toList : Str) ≠ [] ∧
    handleBootstrapJoin cfgW [tokW] ((" ").toList) =
      (Response.joinOk [(tokW.hexID, 0 :: tokW.secret)],
        ⟨true, [tokW.secret]⟩) ∧
    Response.joinOk [(tokW.hexID, 0 :: tokW.secret)] ≠
      Response.status 400 := by
  refine ⟨?_, ?_, ?_⟩
  · decide
  · decide
  · decide

/-- C7: over an empty active-token set, `Join` with no credential fails with
the 405 "not accepting bootstrap requests" status of server.go line 65 — an
outcome distinct from every signatures success and from the 401 unauthorized
("use different credentials") kind. -/
theorem join_empty_tokens_distinct_failure (cfg : CryptoCfg) (header : Str)
    (hhdr : goTrimSpace header = []) :
    handleBootstrapJoin cfg [] header = (Response.status 405, ⟨true, []⟩) ∧
    (∀ m : List (Str × Bytes), Response.status 405 ≠ Response.joinOk m) ∧
    Response.status 405 ≠ Response.status 401 := by
  refine ⟨?_, ?_, ?_⟩
  · simp only [handleBootstrapJoin]
    rw [hhdr, if_pos rfl]
    rfl
  · intro m h
    simp at h
  · decide

/-- Witness for C7's theorem at the empty header. -/
theorem join_empty_tokens_distinct_failure_witness :
    handleBootstrapJoin cfgW [] [] = (Response.status 405, ⟨true, []⟩) :=
  (join_empty_tokens_distinct_failure cfgW [] (by decide)).1

lemma winning_of_succeeded (p : RacePhase) (h : succeeded p = true) :
    winning p = true := by
  cases p with
  | done o => cases o <;> simp_all [succeeded, winning]
  | preCheck => simp [succeeded] at h
  | createT => simp [succeeded] at h
  | putK => simp [succeeded] at h

lemma succeeded_of_winning_done (p : RacePhase) (hd : raceDone p = true)
    (h : winning p = true) : succeeded p = true := by
  cases p with
  | done o => cases o <;> simp_all [succeeded, winning]
  | preCheck => simp [raceDone] at hd
  | createT => simp [raceDone] at hd
  | putK => simp [raceDone] at hd

/-- C1 (amended): however many `Auth` calls race on one ClientID, under
every schedule at most one ever succeeds — uniqueness is enforced by the
atomic `CreateTenant`, not by the step-6 pre-check, which any number of
agents may pass concurrently — and once every call has finished (and there
is at least one), exactly one succeeded while each loser observed either
the 409 pre-check conflict or the 500 the handler returns for a failed
`CreateTenant`, so not necessarily a conflict (see the counterexample). -/
theorem auth_concurrent_create_race (cid : Str) (n : Nat)
    (sched : List Nat) :
    (raceRun cid ⟨[], List.replicate n RacePhase.preCheck⟩
        sched).agents.countP succeeded ≤ 1 ∧
    (1 ≤ n →
      (raceRun cid ⟨[], List.replicate n RacePhase.preCheck⟩
          sched).agents.all raceDone = true →
      (raceRun cid ⟨[], List.replicate n RacePhase.preCheck⟩
          sched).agents.countP succeeded = 1) := by
  have hrep : List.countP winning (List.replicate n RacePhase.preCheck) =
      0 :=
    List.countP_eq_zero.mpr (fun p hp => by
      rw [List.eq_of_mem_replicate hp]
      simp [winning])
  have hinit : RaceInv cid 0 []
      (List.replicate n RacePhase.preCheck) := by
    refine ⟨by omega, ?_, ?_⟩
    · constructor
      · intro hcc
        simp at hcc
      · intro hcc
        exfalso
        omega
    · intro p hp hfp
      rw [List.eq_of_mem_replicate hp] at hfp
      simp [failedDone] at hfp
  obtain ⟨f1, f2, f3⟩ :=
    raceRun_inv cid sched ⟨[], List.replicate n RacePhase.preCheck⟩ hinit
  have hmono : (raceRun cid ⟨[], List.replicate n RacePhase.preCheck⟩
      sched).agents.countP succeeded ≤
        (raceRun cid ⟨[], List.replicate n RacePhase.preCheck⟩
          sched).agents.countP winning :=
    List.countP_mono_left (fun p hp hs => winning_of_succeeded p hs)
  constructor
  · omega
  · intro hn hdone
    have hall := List.all_eq_true.mp hdone
    have hmono2 : (raceRun cid ⟨[], List.replicate n RacePhase.preCheck⟩
        sched).agents.countP winning ≤
          (raceRun cid ⟨[], List.replicate n RacePhase.preCheck⟩
            sched).agents.countP succeeded :=
      List.countP_mono_left (fun p hp hw =>
        succeeded_of_winning_done p (hall p hp) hw)
    have hlen : (raceRun cid ⟨[], List.replicate n RacePhase.preCheck⟩
        sched).agents.length = n := by
      rw [raceRun_length]
      simp
    by_contra hnot
    have hz : (raceRun cid ⟨[], List.replicate n RacePhase.preCheck⟩
        sched).agents.countP succeeded = 0 := by
      omega
    have hnm : cid ∉ (raceRun cid ⟨[], List.replicate n RacePhase.preCheck⟩
        sched).tenants := by
      intro hcc
      have := f2.mp hcc
      omega
    have hAne : (raceRun cid ⟨[], List.replicate n RacePhase.preCheck⟩
        sched).agents ≠ [] := by
      intro hcon
      rw [hcon] at hlen
      simp at hlen
      omega
    rcases List.exists_mem_of_ne_nil _ hAne with ⟨p0, hp0⟩
    have hd0 := hall p0 hp0
    cases p0 with
    | done o =>
      cases o with
      | ok =>
        have hns := List.countP_eq_zero.mp hz _ hp0
        simp [succeeded] at hns
      | conflict =>
        exact hnm (f3 _ hp0 (by simp [failedDone]))
      | internal =>
        exact hnm (f3 _ hp0 (by simp [failedDone]))
    | preCheck =>
      simp [raceDone] at hd0
    | createT =>
      simp [raceDone] at hd0
    | putK =>
      simp [raceDone] at hd0

/-- Witness for C1's theorem: the fully scheduled two-agent race yields
exactly one success. -/
theorem auth_concurrent_create_race_witness :
    (raceRun (("agent-1").toList)
        ⟨[], List.replicate 2 RacePhase.preCheck⟩
        [0, 1, 0, 0, 1]).agents.countP succeeded = 1 :=
  (auth_concurrent_create_race (("agent-1").toList) 2 [0, 1, 0, 0, 1]).2
    (by decide) (by decide)

/-- C1 counterexample: two concurrent `Auth` calls for the same ClientID
both pass the step-6 pre-check; agent 0 then creates the tenant and
finishes, so agent 1's atomic `CreateTenant` fails and its call ends with
the 500 internal error of server.go lines 128-131 — not the 409 conflict
the claim asserts every loser observes. -/
theorem auth_race_loser_internal_counterexample :
    raceRun (("agent-1").toList)
        ⟨[], [RacePhase.preCheck, RacePhase.preCheck]⟩ [0, 1, 0, 0, 1] =
      ⟨[("agent-1").toList],
        [RacePhase.done RaceOutcome.ok,
          RacePhase.done RaceOutcome.internal]⟩ ∧
    raceLoserResponse RaceOutcome.internal = some (Response.status 500) ∧
    Response.status 500 ≠ Response.withString 409 idInUseMsg := by
  refine ⟨?_, ?_, ?_⟩ <;> decide
